import Mathlib

/-!
# Verification of the goscale multi-vendor BLE scale protocol engine

Shallow embedding of the frame codecs, settings cycler, and connection
session logic of the goscale repository.

Conventions used throughout:
* a byte buffer is a `List ℕ`; every byte delivered by the BLE transport
  is `< 256`;
* Go runtime panics (out-of-range index, out-of-range slice, nil pointer
  dereference, close of a closed channel) are modelled by `Option`:
  `none` means the Go code panics on that input;
* Go `error` return values are modelled by `Except DecodeErr` (for the
  codecs) or by a `Bool` error flag (for session operations);
* Go `float64` arithmetic on decoded weights is modelled over `ℚ`: the
  decoders only divide integer magnitudes by constant divisors.
-/

namespace Goscale

/-! ## AKU family codec (`pkg/scales/aku/comms/comms.go`)

`DecodeStatusUpdate` reads `rawStatus[1]` with no length check, and on the
`0x01` branch also reads indices 3, 4 and 5; any of those reads panics when
the buffer is too short, hence the `Option` result. -/

def akuDecodeStatusUpdate (rawStatus : List ℕ) : Option (ℚ × Bool) := do
  let b1 ← rawStatus.get? 1
  if b1 = 0x01 then
    let b3 ← rawStatus.get? 3
    let b4 ← rawStatus.get? 4
    let b5 ← rawStatus.get? 5
    let sign : ℚ := if b3 &&& 0x10 ≠ 0 then -1 else 1
    let actualData : ℚ := sign * ((((b3 &&& 0x0f) <<< 16) + (b4 <<< 8) + b5 : ℕ) : ℚ)
    return (actualData / 100, true)
  else
    return (0, false)

/-! ## Themis family codec (`pkg/scales/themis/comms/comms.go`) -/

structure ThemisStatusUpdate where
  productNumber : ℕ
  typeByte : ℕ
  milliseconds : ℕ
  unitOfWeight : ℕ
  weightSymbolData : ℕ
  gramsWeight : ℚ
  flowRateSymbol : ℕ
  flowRate : ℚ
  powerPercentage : ℕ
  standbyTime : ℕ
  buzzerGear : ℕ
  smoothingSwitch : ℕ
  reserved1 : ℕ
  reserved2 : ℕ
  deriving DecidableEq

/-- `DecodeStatusUpdate` for the Themis family: Go returns `(*StatusUpdate, bool)`;
the `nil, false` case is `(none, false)`. The length is checked up front, so
this decoder never panics. -/
def themisDecodeStatusUpdate (data : List ℕ) : Option ThemisStatusUpdate × Bool :=
  if data.length ≠ 20 then (none, false)
  else
    let gramsUint : ℕ := (data.getD 7 0) <<< 16 ||| (data.getD 8 0) <<< 8 ||| data.getD 9 0
    let flowRateUint : ℕ := (data.getD 11 0) <<< 8 ||| data.getD 12 0
    (some {
      productNumber := data.getD 0 0
      typeByte := data.getD 1 0
      milliseconds := (data.getD 2 0) <<< 16 ||| (data.getD 3 0) <<< 8 ||| data.getD 4 0
      unitOfWeight := data.getD 5 0
      weightSymbolData := data.getD 6 0
      gramsWeight := if data.getD 6 0 = 45 then -((gramsUint : ℚ)) / 100 else (gramsUint : ℚ) / 100
      flowRateSymbol := data.getD 10 0
      flowRate := (flowRateUint : ℚ) / 100
      powerPercentage := data.getD 13 0
      standbyTime := ((data.getD 14 0) <<< 8 ||| data.getD 15 0) / 10
      buzzerGear := data.getD 16 0
      smoothingSwitch := data.getD 17 0
      reserved1 := data.getD 18 0
      reserved2 := data.getD 19 0 }, true)

/-! ## Themis settings cycler (`autoOffSettingsManager`, Themis comms)

`NextWithInt` performs Go's `sort.Search` (binary search for the least
index at which the predicate holds) over the sorted legal settings.
`searchLoop` is the loop of `sort.Search`; the fuel argument only bounds
the iteration count, which for an initial call with fuel `j - i` never
runs out before `i = j`. -/

def sortedSettings : List ℕ := [5, 10, 15, 20, 30]

def searchLoop : ℕ → (ℕ → Bool) → ℕ → ℕ → ℕ
  | 0, _, i, _ => i
  | fuel + 1, f, i, j =>
    if i < j then
      let m := (i + j) / 2
      if f m then searchLoop fuel f i m else searchLoop fuel f (m + 1) j
    else i

def sortSearch (n : ℕ) (f : ℕ → Bool) : ℕ := searchLoop n f 0 n

/-- `autoOffSettingsManager.NextWithInt` (Themis comms): binary search the
sorted settings for the first value strictly greater than `n`, wrapping to
the first (smallest) setting when there is none. -/
def NextWithInt (n : ℕ) : ℕ :=
  if sortedSettings.length = 0 then 5
  else
    let idx := sortSearch sortedSettings.length (fun i => decide (sortedSettings.getD i 0 > n))
    if idx < sortedSettings.length then sortedSettings.getD idx 0
    else sortedSettings.getD 0 0

/-- `CalculateChecksum` (Themis comms): XOR of all payload bytes. -/
def CalculateChecksum (data : List ℕ) : ℕ :=
  data.foldl (fun checksum b => checksum ^^^ b) 0

/-- `BuildAutoOffCommand` (Themis comms). -/
def BuildAutoOffCommand (setting : ℕ) : List ℕ :=
  let payload : List ℕ := [0x03, 0x0a, 0x03, 0x00, setting]
  payload ++ [CalculateChecksum payload]

/-- `BuildChangeBeepCommand` (Themis comms). -/
def BuildChangeBeepCommand (beep : Bool) : List ℕ :=
  let set : ℕ := if beep then 5 else 0
  let payload : List ℕ := [0x03, 0x0a, 0x02, 0x00, set]
  payload ++ [CalculateChecksum payload]

/-! ## Lunar family encoder (`Encode`, Lunar comms) -/

def HeaderPrefix1 : ℕ := 0xEF
def HeaderPrefix2 : ℕ := 0xDD

/-- The checksum loop of the Lunar `Encode`: Go iterates the payload with
its index, adding even-indexed bytes into `csum1` and odd-indexed bytes
into `csum2` (byte arithmetic, i.e. mod 256). -/
def encodeChecksumLoop : List ℕ → ℕ → ℕ → ℕ → ℕ × ℕ
  | [], _, csum1, csum2 => (csum1, csum2)
  | b :: rest, i, csum1, csum2 =>
    if i % 2 = 0 then encodeChecksumLoop rest (i + 1) ((csum1 + b) % 256) csum2
    else encodeChecksumLoop rest (i + 1) csum1 ((csum2 + b) % 256)

/-- `Encode` (Lunar comms): 2-byte magic header, message type byte, payload,
then the two checksum trailer bytes. -/
def Encode (messageType : ℕ) (payload : List ℕ) : List ℕ :=
  let csums := encodeChecksumLoop payload 0 0 0
  [HeaderPrefix1, HeaderPrefix2, messageType] ++ payload ++ [csums.1, csums.2]

/-! ## Lunar family decoder (`pkg/scales/lunar/comms/decode/`) -/

def WeightTypeNet : ℕ := 0
def WeightTypeGross : ℕ := 1
def WeightTypeTare : ℕ := 2

structure WeightMessage where
  weight : ℚ
  type : ℕ
  isStable : Bool
  deriving DecidableEq

structure StatusMessage where
  statusLength : ℕ
  battery : ℚ
  isTimerRunning : Bool
  unit : ℕ
  isCountdownRunning : Bool
  scaleMode : ℕ
  isTared : Bool
  sleepTimerSetting : ℕ
  keyDisableSetting : ℕ
  soundSetting : ℕ
  resolutionSetting : ℕ
  capacitySetting : ℕ
  timerValue : ℕ
  deriving DecidableEq

structure DeviceInfoMessage where
  firmwareMain : ℕ
  firmwareSub : ℕ
  firmwareAdd : ℕ
  isPasswordSet : Bool
  deriving DecidableEq

structure UnhandledMessage where
  commandID : ℕ
  msgType : Option ℕ
  payload : List ℕ
  rawFrame : List ℕ
  deriving DecidableEq

inductive LunarMessage where
  | weight (w : WeightMessage)
  | status (s : StatusMessage)
  | deviceInfo (d : DeviceInfoMessage)
  | unhandled (u : UnhandledMessage)
  deriving DecidableEq

/-- The distinct `error` values returned by the Lunar decoders. -/
inductive DecodeErr where
  | headerNotFound
  | tooShort
  | lengthMismatch (expected got : ℕ)
  | weightTooShort
  | weightFailed (e : DecodeErr)
  | invalidStatusLength (got : ℕ)
  | invalidInfoLength (got : ℕ)
  deriving DecidableEq

instance {α β : Type} [DecidableEq α] [DecidableEq β] : DecidableEq (Except α β) := fun x y =>
  match x, y with
  | .error a, .error b =>
    if h : a = b then .isTrue (by rw [h]) else .isFalse (by simp [h])
  | .ok a, .ok b =>
    if h : a = b then .isTrue (by rw [h]) else .isFalse (by simp [h])
  | .error _, .ok _ => .isFalse (by simp)
  | .ok _, .error _ => .isFalse (by simp)

/-- Go slice expression `xs[a:b]`: panics (`none`) unless `a ≤ b ≤ len xs`. -/
def goSlice (xs : List ℕ) (a b : ℕ) : Option (List ℕ) :=
  if a ≤ b ∧ b ≤ xs.length then some ((xs.drop a).take (b - a)) else none

/-- `bcdToDec` (Lunar decode): each nibble is an independent decimal digit. -/
def bcdToDec (bcd : ℕ) : ℕ := (bcd >>> 4) * 10 + (bcd &&& 0x0F)

/-- `decodeWeight` (`decodeweight.go`): 6-byte weight event payload with a
little-endian 32-bit magnitude, a divisor selector byte and a flags byte. -/
def decodeWeight (payload : List ℕ) : Except DecodeErr WeightMessage :=
  if payload.length < 6 then .error .weightTooShort
  else
    let unit := payload.getD 4 0
    let divisor : ℚ :=
      if unit = 1 then 10
      else if unit = 2 then 100
      else if unit = 3 then 1000
      else if unit = 4 then 10000
      else 10
    let flags := payload.getD 5 0
    let isStable := flags &&& 0x01 = 0
    let sign : ℚ := if flags &&& 0x02 ≠ 0 then -1 else 1
    let raw : ℕ :=
      payload.getD 0 0 ||| (payload.getD 1 0) <<< 8 |||
        (payload.getD 2 0) <<< 16 ||| (payload.getD 3 0) <<< 24
    .ok { weight := sign * ((raw : ℚ) / divisor)
          type := flags >>> 2
          isStable := isStable }

/-- `DecodeStatusMessage` (`decode.go`): 9- or 12-byte status payload;
bytes 1–3 each pack a 7-bit value and a flag in bit 7. -/
def DecodeStatusMessage (payload : List ℕ) : Except DecodeErr StatusMessage :=
  if payload.length ≠ 9 ∧ payload.length ≠ 12 then
    .error (.invalidStatusLength payload.length)
  else
    .ok { statusLength := payload.getD 0 0
          battery := (((payload.getD 1 0) &&& 0x7F : ℕ) : ℚ)
          isTimerRunning := ((payload.getD 1 0) >>> 7) &&& 0x01 == 1
          unit := (payload.getD 2 0) &&& 0x7F
          isCountdownRunning := ((payload.getD 2 0) >>> 7) &&& 0x01 == 1
          scaleMode := (payload.getD 3 0) &&& 0x7F
          isTared := ((payload.getD 3 0) >>> 7) &&& 0x01 == 1
          sleepTimerSetting := payload.getD 4 0
          keyDisableSetting := payload.getD 5 0
          soundSetting := payload.getD 6 0
          resolutionSetting := payload.getD 7 0
          capacitySetting := payload.getD 8 0
          timerValue :=
            if payload.length = 12 then (payload.getD 9 0) * 60 + payload.getD 10 0
            else 0 }

/-- `DecodeDeviceInfoMessage` (`decode.go`): 7-byte info payload, BCD
firmware version components. -/
def DecodeDeviceInfoMessage (payload : List ℕ) : Except DecodeErr DeviceInfoMessage :=
  if payload.length ≠ 7 then .error (.invalidInfoLength payload.length)
  else
    .ok { firmwareMain := bcdToDec (payload.getD 3 0)
          firmwareSub := bcdToDec (payload.getD 4 0)
          firmwareAdd := bcdToDec (payload.getD 2 0)
          isPasswordSet := payload.getD 6 0 ≠ 0 }

/-- `decodeEventMessage` (`decode.go`): second dispatch on the nested event
type when the top-level command is 12; type 5 is weight, everything else is
`UnhandledMessage`. -/
def decodeEventMessage (msgType : ℕ) (payload rawFrame : List ℕ) :
    Except DecodeErr LunarMessage :=
  if msgType = 5 then
    match decodeWeight payload with
    | .error e => .error (.weightFailed e)
    | .ok msg => .ok (.weight msg)
  else
    .ok (.unhandled { commandID := 12, msgType := some msgType
                      payload := payload, rawFrame := rawFrame })

/-- `bytes.Index data [0xEF, 0xDD]`: index of the first occurrence of the
2-byte magic header, `none` when absent. -/
def findHeader : List ℕ → Option ℕ
  | a :: b :: rest =>
    if a = HeaderPrefix1 ∧ b = HeaderPrefix2 then some 0
    else (findHeader (b :: rest)).map (· + 1)
  | _ => none

/-- `DecodeNotification` (`decode.go`): locate the header, check the length
byte, truncate to the expected frame length and dispatch on the command
identifier byte. The slice expressions `frame[5:len-2]` / `frame[3:len-2]` /
`frame[4:len-2]` can panic (length byte 0 or 1), hence the `Option`. -/
def DecodeNotification (data : List ℕ) : Option (Except DecodeErr LunarMessage) :=
  match findHeader data with
  | none => some (.error .headerNotFound)
  | some idx =>
    let frame := data.drop idx
    if frame.length < 4 then some (.error .tooShort)
    else
      let payloadLen := frame.getD 3 0
      let expectedFrameLen := payloadLen + 5
      if frame.length < expectedFrameLen then
        some (.error (.lengthMismatch expectedFrameLen frame.length))
      else
        let frame := frame.take expectedFrameLen
        let commandID := frame.getD 2 0
        if commandID = 12 then
          let msgType := frame.getD 4 0
          match goSlice frame 5 (frame.length - 2) with
          | none => none
          | some payload => some (decodeEventMessage msgType payload frame)
        else if commandID = 8 then
          match goSlice frame 3 (frame.length - 2) with
          | none => none
          | some payload => some ((DecodeStatusMessage payload).map .status)
        else if commandID = 7 then
          match goSlice frame 3 (frame.length - 2) with
          | none => none
          | some payload => some ((DecodeDeviceInfoMessage payload).map .deviceInfo)
        else
          match goSlice frame 4 (frame.length - 2) with
          | none => none
          | some payload =>
            some (.ok (.unhandled { commandID := commandID, msgType := none
                                    payload := payload, rawFrame := frame }))

/-! ## Connection sessions: Disconnect and notification dispatch -/

/-- The Go `WeightUpdate` value sent on the weight update channel; the
dispatch paths under study only ever set the `Value` field. -/
structure WeightUpdate where
  value : ℚ
  deriving DecidableEq

/-- The parts of an `AkuScale`/`ThemisScale` session state that
`Disconnect` touches: whether `weightUpdateChan` is nil, whether it has
already been closed, whether the cancel function has been called, and the
`connected` flag. -/
structure ScaleSession where
  chanNil : Bool
  chanClosed : Bool
  ctxCancelled : Bool
  connected : Bool
  deriving DecidableEq

/-- A session as left by a successful `Connect`: a fresh (non-nil, open)
channel and `connected = true`. -/
def connectedSession : ScaleSession :=
  { chanNil := false, chanClosed := false, ctxCancelled := false, connected := true }

/-- `AkuScale.Disconnect` / `ThemisScale.Disconnect` (identical bodies).
`btErr` is the result of the transport's `btDevice.Disconnect()`; on error
the method returns that error with no state change. Otherwise it runs
`close(weightUpdateChan)` when the channel is non-nil — a Go `close` of an
already-closed channel panics (`none`) — then cancels the context and
clears `connected`. Returns the new state and an error flag. -/
def scaleDisconnect (s : ScaleSession) (btErr : Bool) : Option (ScaleSession × Bool) :=
  if btErr then some (s, true)
  else if s.chanNil = false ∧ s.chanClosed then none
  else
    some ({ chanNil := s.chanNil
            chanClosed := if s.chanNil then s.chanClosed else true
            ctxCancelled := true
            connected := false }, false)

/-- `AkuScale.handleNotification`: decodes and then sends
`WeightUpdate{Value: weight}` unconditionally — a failed decode only logs.
Result: the list of updates emitted on the weight update channel, `none`
when the decoder itself panics. -/
def akuHandleNotification (buf : List ℕ) : Option (List WeightUpdate) := do
  let (weight, _ok) ← akuDecodeStatusUpdate buf
  return [{ value := weight }]

/-- `ThemisScale.handleNotification`: stores the decoded status (possibly
nil) and then reads `status.GramsWeight` for the channel send; when decode
failed the status pointer is nil and the field access panics (`none`). -/
def themisHandleNotification (buf : List ℕ) : Option (List WeightUpdate) :=
  let statusAndOk := themisDecodeStatusUpdate buf
  match statusAndOk.1 with
  | none => none
  | some st => some [{ value := st.gramsWeight }]

/-- `LunarScale.handleNotification`: a decode error only logs and returns;
a `WeightMessage` is pushed onto the channel; status, device-info and
unhandled messages emit nothing. -/
def lunarHandleNotification (buf : List ℕ) : Option (List WeightUpdate) :=
  match DecodeNotification buf with
  | none => none
  | some (.error _) => some []
  | some (.ok msg) =>
    match msg with
    | .weight w => some [{ value := w.weight }]
    | .status _ => some []
    | .deviceInfo _ => some []
    | .unhandled _ => some []

/-! ## Auxiliary spec-side functions -/

/-- XOR of all elements, foldr-style (spec-side formulation of the Themis
checksum, compared against the code's `foldl`). -/
def xorAll : List ℕ → ℕ
  | [] => 0
  | b :: rest => b ^^^ xorAll rest

/-- `(sum of even-indexed bytes, sum of odd-indexed bytes)`. -/
def splitSums : List ℕ → ℕ × ℕ
  | [] => (0, 0)
  | b :: rest => (b + (splitSums rest).2, (splitSums rest).1)

/-- `(XOR of even-indexed bytes, XOR of odd-indexed bytes)`. -/
def splitXors : List ℕ → ℕ × ℕ
  | [] => (0, 0)
  | b :: rest => (b ^^^ (splitXors rest).2, (splitXors rest).1)

/-- Modelled from the spec sentence "a split XOR/sum over even- and
odd-indexed payload bytes producing two trailer bytes", read as: first
trailer byte = XOR of the even-indexed payload bytes, second trailer
byte = sum of the odd-indexed payload bytes. To be compared with the
code's `Encode`. -/
def lunarXorSumEncodeSpec (messageType : ℕ) (payload : List ℕ) : List ℕ :=
  [HeaderPrefix1, HeaderPrefix2, messageType] ++ payload ++
    [(splitXors payload).1, (splitSums payload).2 % 256]

/-! ## Helper lemmas -/

lemma foldl_xor_eq_xorAll (l : List ℕ) : ∀ acc, l.foldl (fun c b => c ^^^ b) acc = acc ^^^ xorAll l := by
  induction l with
  | nil => intro acc; simp [xorAll]
  | cons b rest ih =>
    intro acc
    simp only [List.foldl_cons, xorAll, ih (acc ^^^ b)]
    rw [Nat.xor_assoc]

lemma encodeChecksumLoop_eq (l : List ℕ) :
    ∀ i c1 c2, encodeChecksumLoop l i (c1 % 256) (c2 % 256) =
      if i % 2 = 0 then ((c1 + (splitSums l).1) % 256, (c2 + (splitSums l).2) % 256)
      else ((c1 + (splitSums l).2) % 256, (c2 + (splitSums l).1) % 256) := by
  induction l with
  | nil =>
    intro i c1 c2
    simp [encodeChecksumLoop, splitSums]
  | cons b rest ih =>
    intro i c1 c2
    by_cases hi : i % 2 = 0
    · rw [encodeChecksumLoop, if_pos hi, Nat.mod_add_mod, ih (i + 1) (c1 + b) c2]
      have : ¬ ((i + 1) % 2 = 0) := by omega
      rw [if_neg this, if_pos hi]
      simp [splitSums, Nat.add_assoc]
    · rw [encodeChecksumLoop, if_neg hi, Nat.mod_add_mod, ih (i + 1) c1 (c2 + b)]
      have : (i + 1) % 2 = 0 := by omega
      rw [if_pos this, if_neg hi]
      simp [splitSums, Nat.add_assoc]

lemma findHeader_bound : ∀ (data : List ℕ) (idx : ℕ), findHeader data = some idx →
    idx + 2 ≤ data.length := by
  intro data
  induction data with
  | nil => intro idx h; simp [findHeader] at h
  | cons a tl ih =>
    intro idx h
    match tl, h with
    | [], h => simp [findHeader] at h
    | b :: rest, h =>
      by_cases hab : a = HeaderPrefix1 ∧ b = HeaderPrefix2
      · rw [findHeader, if_pos hab] at h
        cases h
        simp
      · rw [findHeader, if_neg hab] at h
        rcases Option.map_eq_some'.mp h with ⟨m, hm, hmi⟩
        have := ih m hm
        simp only [List.length_cons] at this ⊢
        omega

lemma findHeader_append {data : List ℕ} {idx : ℕ} (extra : List ℕ)
    (h : findHeader data = some idx) : findHeader (data ++ extra) = some idx := by
  induction data generalizing idx with
  | nil => simp [findHeader] at h
  | cons a tl ih =>
    match tl, h with
    | [], h => simp [findHeader] at h
    | b :: rest, h =>
      by_cases hab : a = HeaderPrefix1 ∧ b = HeaderPrefix2
      · rw [findHeader, if_pos hab] at h
        simp only [List.cons_append]
        rw [findHeader, if_pos hab]
        exact h
      · rw [findHeader, if_neg hab] at h
        rcases Option.map_eq_some'.mp h with ⟨m, hm, hmi⟩
        simp only [List.cons_append]
        rw [findHeader, if_neg hab]
        have := ih hm
        simp only [List.cons_append] at this
        rw [this]
        simp [hmi]

/-! ## Claim theorems -/

/-- Claim C1: the claim that every family's decode entry point is total (returns a
typed message or an explicit decode failure, never indexing out of bounds and
never panicking) fails on the code. The AKU `DecodeStatusUpdate` reads
`rawStatus[1]` with no length check, so it panics on an empty buffer and on
the 2-byte buffer `[0x00, 0x01]` (whose `0x01` branch reads index 3); the
Lunar `DecodeNotification` evaluates the slice `frame[4:len(frame)-2]` on the
5-byte frame `EF DD 09 00 00` (length byte 0), which panics since `4 > 3`.
`none` is the embedding's model of a Go runtime panic. -/
theorem decode_entry_points_can_panic :
    akuDecodeStatusUpdate [] = none ∧
    akuDecodeStatusUpdate [0x00, 0x01] = none ∧
    DecodeNotification [0xEF, 0xDD, 0x09, 0x00, 0x00] = none := by
  refine ⟨rfl, rfl, by decide⟩

/-- Claim C2: the claim that `Disconnect` is idempotent fails on the code. After a
first successful `Disconnect` the weight update channel has been closed but
the field is not cleared; a second `Disconnect` either propagates the
transport error (when `btDevice.Disconnect()` fails) or reaches
`close(weightUpdateChan)` again and panics with "close of closed channel"
(modelled as `none`). -/
theorem disconnect_not_idempotent :
    scaleDisconnect connectedSession false =
      some ({ chanNil := false, chanClosed := true, ctxCancelled := true,
              connected := false }, false) ∧
    scaleDisconnect
      { chanNil := false, chanClosed := true, ctxCancelled := true, connected := false }
      false = none ∧
    scaleDisconnect
      { chanNil := false, chanClosed := true, ctxCancelled := true, connected := false }
      true =
      some ({ chanNil := false, chanClosed := true, ctxCancelled := true,
              connected := false }, true) := by
  refine ⟨by decide, by decide, by decide⟩

/-- Claim C3: the claim that a failed or unhandled decode emits nothing on the
weight update channel fails for two of the three families. The AKU dispatch
sends `WeightUpdate{Value: 0}` even when decode fails (the buffer
`00 00 00 00 00 00` fails decode yet one update is emitted); the Themis
dispatch dereferences the nil status pointer after a failed decode (empty
buffer) and panics (`none`). Only the Lunar dispatch behaves as claimed:
a decode error or an unhandled message emits nothing. -/
theorem failed_decode_dispatch_behaviour :
    akuHandleNotification [0x00, 0x00, 0x00, 0x00, 0x00, 0x00] = some [{ value := 0 }] ∧
    themisHandleNotification [] = none ∧
    lunarHandleNotification [0xEF, 0xDD, 0x0C, 0x09] = some [] ∧
    lunarHandleNotification [0xEF, 0xDD, 0x01, 0x01, 0x00, 0x00] = some [] := by
  refine ⟨by simp [akuHandleNotification, akuDecodeStatusUpdate], rfl, by decide, by decide⟩

/-- Claim C10 counterexample: the Lunar `Encode` does not compute its first trailer
byte as an XOR of the even-indexed payload bytes. On the payload `[1, 0, 1]`
the even-indexed bytes are `1` and `1`: their XOR is 0, but `Encode` emits 2
(their sum); `lunarXorSumEncodeSpec` is the claim's split XOR/sum scheme read
as stated. -/
theorem encode_xor_sum_counterexample :
    Encode 6 [1, 0, 1] = [0xEF, 0xDD, 6, 1, 0, 1, 2, 0] ∧
    lunarXorSumEncodeSpec 6 [1, 0, 1] = [0xEF, 0xDD, 6, 1, 0, 1, 0, 0] ∧
    (Encode 6 [1, 0, 1] == lunarXorSumEncodeSpec 6 [1, 0, 1]) = false := by
  refine ⟨by decide, by decide, by decide⟩

/-- Claim C10 (amended): encoding is deterministic, the Themis checksum is the XOR
of all payload bytes (appended as a single trailer byte by the command
builders), and the Lunar `Encode` appends two trailer bytes that are the
byte-sums (mod 256) of the even-indexed and odd-indexed payload bytes
respectively. -/
theorem encode_checksum_trailer :
    (∀ messageType payload, Encode messageType payload =
      [HeaderPrefix1, HeaderPrefix2, messageType] ++ payload ++
        [(splitSums payload).1 % 256, (splitSums payload).2 % 256]) ∧
    (∀ data, CalculateChecksum data = xorAll data) ∧
    (∀ setting, BuildAutoOffCommand setting =
      [0x03, 0x0a, 0x03, 0x00, setting] ++ [xorAll [0x03, 0x0a, 0x03, 0x00, setting]]) := by
  refine ⟨?_, ?_, ?_⟩
  · intro messageType payload
    have h := encodeChecksumLoop_eq payload 0 0 0
    simp only [Nat.zero_mod, Nat.zero_add] at h
    simp [Encode, h]
  · intro data
    simpa using foldl_xor_eq_xorAll data 0
  · intro setting
    have h := foldl_xor_eq_xorAll [0x03, 0x0a, 0x03, 0x00, setting] 0
    simp [BuildAutoOffCommand, CalculateChecksum, h]

lemma and_127_eq_mod (b : ℕ) : b &&& 127 = b % 128 := by
  have h : (127 : ℕ) = 2 ^ 7 - 1 := by norm_num
  have h' : (128 : ℕ) = 2 ^ 7 := by norm_num
  rw [h, h', Nat.and_pow_two_sub_one_eq_mod]

lemma shiftRight7_and1 (b : ℕ) : ((b >>> 7) &&& 1 == 1) = b.testBit 7 := by
  have h27 : (2 : ℕ) ^ 7 = 128 := by norm_num
  rw [Nat.and_one_is_mod, Nat.testBit_to_div_mod, Nat.shiftRight_eq_div_pow, h27]
  rcases Nat.mod_two_eq_zero_or_one (b / 128) with h | h <;> simp [h]

/-- Claim C4: the Lunar weight payload `66 08 00 00 02 00` (little-endian magnitude
2150, divisor byte 2, flags 0) decodes to weight 21.50 (= 43/2), type Net,
stable; and in general the decoded weight is the sign selected by flag bit 1
times the little-endian uint32 of bytes 0–3 divided by the divisor selected
by byte 4, with flag bit 0 clear meaning stable and the remaining flag bits
giving the weight type. -/
theorem lunar_decodeWeight_spec :
    decodeWeight [0x66, 0x08, 0x00, 0x00, 0x02, 0x00] =
      .ok { weight := 43/2, type := WeightTypeNet, isStable := true } ∧
    ∀ payload w, decodeWeight payload = .ok w →
      w.weight =
        (if (payload.getD 5 0) &&& 0x02 ≠ 0 then (-1 : ℚ) else 1) *
          (((payload.getD 0 0 ||| (payload.getD 1 0) <<< 8 |||
             (payload.getD 2 0) <<< 16 ||| (payload.getD 3 0) <<< 24 : ℕ) : ℚ) /
           (if payload.getD 4 0 = 1 then 10 else if payload.getD 4 0 = 2 then 100
            else if payload.getD 4 0 = 3 then 1000
            else if payload.getD 4 0 = 4 then 10000 else 10)) ∧
      w.isStable = decide ((payload.getD 5 0) &&& 0x01 = 0) ∧
      w.type = (payload.getD 5 0) >>> 2 := by
  constructor
  · simp [decodeWeight, WeightTypeNet]
    norm_num
  · intro payload w h
    by_cases hlen : payload.length < 6
    · rw [decodeWeight, if_pos hlen] at h
      exact absurd h (by simp)
    · simp only [decodeWeight, if_neg hlen, Except.ok.injEq] at h
      subst h
      exact ⟨rfl, rfl, rfl⟩

/-- Claim C4 witness: the general formula evaluated on the concrete net/stable
+21.50 g payload. -/
theorem lunar_decodeWeight_spec_witness :
    decodeWeight [0x66, 0x08, 0x00, 0x00, 0x02, 0x00] =
      .ok { weight := 43/2, type := WeightTypeNet, isStable := true } ∧
    ({ weight := 43/2, type := WeightTypeNet, isStable := true } : WeightMessage).type =
      (([0x66, 0x08, 0x00, 0x00, 0x02, 0x00] : List ℕ).getD 5 0) >>> 2 := by
  refine ⟨lunar_decodeWeight_spec.1, ?_⟩
  exact (lunar_decodeWeight_spec.2 [0x66, 0x08, 0x00, 0x00, 0x02, 0x00] _
    lunar_decodeWeight_spec.1).2.2

/-- Claim C5: every decoded Themis record carries `GramsWeight` equal to the
big-endian 24-bit magnitude of bytes 7–9 divided by 100, negated exactly
when byte 6 is ASCII `'-'` (45); in particular a record with sign byte 45
and magnitude 150 yields -1.50 (= -(3/2)). -/
theorem themis_grams_weight_spec :
    (∀ data u, themisDecodeStatusUpdate data = (some u, true) →
      u.gramsWeight =
        (if data.getD 6 0 = 45 then (-1 : ℚ) else 1) *
          ((((data.getD 7 0) <<< 16 ||| (data.getD 8 0) <<< 8 ||| data.getD 9 0 : ℕ) : ℚ) /
            100)) ∧
    (∀ data u, data.length = 20 → data.getD 6 0 = 45 →
      data.getD 7 0 = 0 → data.getD 8 0 = 0 → data.getD 9 0 = 150 →
      themisDecodeStatusUpdate data = (some u, true) →
      u.gramsWeight = -(3/2 : ℚ)) := by
  have main : ∀ data u, themisDecodeStatusUpdate data = (some u, true) →
      u.gramsWeight =
        (if data.getD 6 0 = 45 then (-1 : ℚ) else 1) *
          ((((data.getD 7 0) <<< 16 ||| (data.getD 8 0) <<< 8 ||| data.getD 9 0 : ℕ) : ℚ) /
            100) := by
    intro data u h
    by_cases hlen : data.length ≠ 20
    · rw [themisDecodeStatusUpdate, if_pos hlen] at h
      exact absurd h (by simp)
    · simp only [themisDecodeStatusUpdate, if_neg hlen, Prod.mk.injEq,
        Option.some.injEq] at h
      obtain ⟨hu, -⟩ := h
      subst hu
      by_cases h45 : data.getD 6 0 = 45 <;> simp [h45] <;> ring_nf
  refine ⟨main, ?_⟩
  intro data u hlen h6 h7 h8 h9 h
  rw [main data u h, h6, h7, h8, h9]
  have h150 : ((0 : ℕ) <<< 16 ||| (0 : ℕ) <<< 8 ||| 150 : ℕ) = 150 := by decide
  rw [h150]
  norm_num

/-- Claim C5 witness: the concrete 20-byte record with sign byte `'-'` and
magnitude 150 decodes to -1.50 grams. -/
theorem themis_grams_weight_spec_witness :
    ({ productNumber := 1, typeByte := 2, milliseconds := 0, unitOfWeight := 0,
       weightSymbolData := 45, gramsWeight := -(3/2 : ℚ), flowRateSymbol := 0,
       flowRate := 0, powerPercentage := 0, standbyTime := 0, buzzerGear := 0,
       smoothingSwitch := 0, reserved1 := 0,
       reserved2 := 0 } : ThemisStatusUpdate).gramsWeight = -(3/2 : ℚ) := by
  refine themis_grams_weight_spec.2
    [1, 2, 0, 0, 0, 0, 45, 0, 0, 150, 0, 0, 0, 0, 0, 0, 0, 0, 0, 0] _
    (by decide) (by decide) (by decide) (by decide) (by decide) ?_
  simp [themisDecodeStatusUpdate]
  norm_num

/-- Claim C9: every successfully decoded Lunar status payload unpacks bytes 1–3
into two fields each: the low 7 bits (value mod 128) give battery, unit and
scale mode, and bit 7 gives the timer-running, countdown-running and tared
flags. -/
theorem lunar_status_bitfields (payload : List ℕ) (m : StatusMessage)
    (h : DecodeStatusMessage payload = .ok m) :
    m.battery = (((payload.getD 1 0) % 128 : ℕ) : ℚ) ∧
    m.isTimerRunning = (payload.getD 1 0).testBit 7 ∧
    m.unit = (payload.getD 2 0) % 128 ∧
    m.isCountdownRunning = (payload.getD 2 0).testBit 7 ∧
    m.scaleMode = (payload.getD 3 0) % 128 ∧
    m.isTared = (payload.getD 3 0).testBit 7 := by
  by_cases hlen : payload.length ≠ 9 ∧ payload.length ≠ 12
  · rw [DecodeStatusMessage, if_pos hlen] at h
    exact absurd h (by simp)
  · simp only [DecodeStatusMessage, if_neg hlen, Except.ok.injEq] at h
    subst h
    refine ⟨?_, ?_, ?_, ?_, ?_, ?_⟩
    · show ((payload.getD 1 0 &&& 0x7F : ℕ) : ℚ) = _
      rw [and_127_eq_mod]
    · exact shiftRight7_and1 _
    · exact and_127_eq_mod _
    · exact shiftRight7_and1 _
    · exact and_127_eq_mod _
    · exact shiftRight7_and1 _

/-- Claim C9 witness: a concrete 9-byte status payload with battery 100, timer
stopped, unit grams (2), countdown stopped, mode 3 with the tared bit set
(byte 3 = 0x83 = 131). -/
theorem lunar_status_bitfields_witness :
    ({ statusLength := 9, battery := 100, isTimerRunning := false, unit := 2,
       isCountdownRunning := false, scaleMode := 3, isTared := true,
       sleepTimerSetting := 1, keyDisableSetting := 0, soundSetting := 1,
       resolutionSetting := 1, capacitySetting := 0,
       timerValue := 0 } : StatusMessage).isTared = (131 : ℕ).testBit 7 := by
  refine (lunar_status_bitfields [9, 100, 2, 131, 1, 0, 1, 1, 0] _ ?_).2.2.2.2.2
  simp [DecodeStatusMessage]
  refine ⟨?_, by decide, by decide⟩
  norm_num [show (100 &&& 127 : ℕ) = 100 from by decide]

/-- The `sort.Search` loop returns the least index at which a (monotone,
up to `bound`) predicate first holds, given enough fuel and the invariant
that the predicate is false below `i` and true from `j` on. -/
lemma searchLoop_spec (f : ℕ → Bool) (bound : ℕ)
    (hmono : ∀ a b, a ≤ b → b < bound → f a = true → f b = true) :
    ∀ fuel i j, j - i ≤ fuel → i ≤ j → j ≤ bound →
      (∀ k, k < i → f k = false) →
      (∀ k, j ≤ k → k < bound → f k = true) →
      i ≤ searchLoop fuel f i j ∧ searchLoop fuel f i j ≤ j ∧
      (∀ k, k < searchLoop fuel f i j → f k = false) ∧
      (∀ k, searchLoop fuel f i j ≤ k → k < bound → f k = true) := by
  intro fuel
  induction fuel with
  | zero =>
    intro i j hfuel hij hjb hlow hhigh
    have hji : i = j := by omega
    subst hji
    exact ⟨le_refl i, le_refl i, hlow, hhigh⟩
  | succ fuel ih =>
    intro i j hfuel hij hjb hlow hhigh
    by_cases hlt : i < j
    · rw [searchLoop, if_pos hlt]
      have hm1 : i ≤ (i + j) / 2 := by omega
      have hm2 : (i + j) / 2 < j := by omega
      by_cases hfm : f ((i + j) / 2) = true
      · rw [if_pos hfm]
        have := ih i ((i + j) / 2) (by omega) (by omega) (by omega) hlow
          (fun k hk hkb => hmono ((i + j) / 2) k hk hkb hfm)
        exact ⟨this.1, by omega, this.2.2.1, this.2.2.2⟩
      · rw [if_neg hfm]
        have hlow' : ∀ k, k < (i + j) / 2 + 1 → f k = false := by
          intro k hk
          by_cases hki : k < i
          · exact hlow k hki
          · cases hfk : f k with
            | false => rfl
            | true => exact absurd (hmono k ((i + j) / 2) (by omega) (by omega) hfk) hfm
        have := ih ((i + j) / 2 + 1) j (by omega) (by omega) hjb hlow' hhigh
        exact ⟨by omega, this.2.1, this.2.2.1, this.2.2.2⟩
    · rw [searchLoop, if_neg hlt]
      have hji : i = j := by omega
      subst hji
      exact ⟨le_refl i, le_refl i, hlow, hhigh⟩

/-- Claim C6: `NextWithInt` always returns a legal setting; for every
`currentValue` below the maximum legal setting (30) it returns a setting
strictly greater than `currentValue` and no greater than any legal setting
strictly greater than `currentValue` (i.e. the smallest strict successor,
so repeated calls with a non-advancing `currentValue` return the same
value); and for every `currentValue` at or above 30 it wraps to the
minimum legal setting 5. -/
theorem nextWithInt_next_greater (n : ℕ) :
    NextWithInt n ∈ sortedSettings ∧
    (n < 30 → n < NextWithInt n ∧
      ∀ s ∈ sortedSettings, n < s → NextWithInt n ≤ s) ∧
    (30 ≤ n → NextWithInt n = 5) := by
  have hvals : ∀ b, b < 5 → ∀ a, a ≤ b →
      sortedSettings.getD a 0 ≤ sortedSettings.getD b 0 := by decide
  have hmem : ∀ k, k < 5 → sortedSettings.getD k 0 ∈ sortedSettings := by decide
  have hmax : ∀ k, k < 5 → sortedSettings.getD k 0 ≤ 30 := by decide
  have hmono : ∀ a b, a ≤ b → b < 5 →
      (fun i => decide (sortedSettings.getD i 0 > n)) a = true →
      (fun i => decide (sortedSettings.getD i 0 > n)) b = true := by
    intro a b hab hb hfa
    simp only [decide_eq_true_eq] at hfa ⊢
    exact lt_of_lt_of_le hfa (hvals b hb a (by omega))
  obtain ⟨hr0, hr5, hlowf, hhighf⟩ :=
    searchLoop_spec (fun i => decide (sortedSettings.getD i 0 > n)) 5 hmono 5 0 5
      (by omega) (by omega) (le_refl 5)
      (fun k hk => absurd hk (Nat.not_lt_zero k))
      (fun k h5 h5' => absurd (lt_of_le_of_lt h5 h5') (lt_irrefl 5))
  have hlen5 : sortedSettings.length = 5 := rfl
  have hNW : NextWithInt n =
      if searchLoop 5 (fun i => decide (sortedSettings.getD i 0 > n)) 0 5 < 5 then
        sortedSettings.getD
          (searchLoop 5 (fun i => decide (sortedSettings.getD i 0 > n)) 0 5) 0
      else sortedSettings.getD 0 0 := by
    simp only [NextWithInt, sortSearch, hlen5]
    rw [if_neg (by decide)]
  by_cases hn30 : n < 30
  · have hf4 : decide (sortedSettings.getD 4 0 > n) = true := by
      rw [decide_eq_true_eq]
      show (30 : ℕ) > n
      omega
    have hr4 : searchLoop 5 (fun i => decide (sortedSettings.getD i 0 > n)) 0 5 < 5 := by
      by_contra hge
      push_neg at hge
      have hc := hlowf 4 (by omega)
      rw [hf4] at hc
      simp at hc
    have hgt : n < sortedSettings.getD
        (searchLoop 5 (fun i => decide (sortedSettings.getD i 0 > n)) 0 5) 0 := by
      have := hhighf _ (le_refl _) hr4
      simpa only [decide_eq_true_eq] using this
    have key : ∀ k, k < 5 → n < sortedSettings.getD k 0 →
        sortedSettings.getD
          (searchLoop 5 (fun i => decide (sortedSettings.getD i 0 > n)) 0 5) 0 ≤
          sortedSettings.getD k 0 := by
      intro k hk hnk
      have hrk : searchLoop 5 (fun i => decide (sortedSettings.getD i 0 > n)) 0 5 ≤ k := by
        by_contra hkr
        push_neg at hkr
        have hc := hlowf k hkr
        rw [decide_eq_false_iff_not] at hc
        omega
      exact hvals k hk _ hrk
    rw [hNW, if_pos hr4]
    refine ⟨hmem _ hr4, fun _ => ⟨hgt, ?_⟩, fun h30 => absurd h30 (by omega)⟩
    intro s hs hns
    fin_cases hs
    · exact key 0 (by omega) hns
    · exact key 1 (by omega) hns
    · exact key 2 (by omega) hns
    · exact key 3 (by omega) hns
    · exact key 4 (by omega) hns
  · have hr5' : searchLoop 5 (fun i => decide (sortedSettings.getD i 0 > n)) 0 5 = 5 := by
      by_contra hne
      have hlt5 : searchLoop 5 (fun i => decide (sortedSettings.getD i 0 > n)) 0 5 < 5 := by
        omega
      have := hhighf _ (le_refl _) hlt5
      simp only [decide_eq_true_eq] at this
      have := hmax _ hlt5
      omega
    rw [hNW, hr5', if_neg (by omega)]
    exact ⟨hmem 0 (by omega), fun h => absurd h (by omega), fun _ => rfl⟩

/-- Claim C6 witness: at the maximum setting the cycler wraps to 5, and at 12 it
returns the smallest legal setting strictly greater than 12 (namely 15). -/
theorem nextWithInt_next_greater_witness :
    NextWithInt 30 = 5 ∧ (12 : ℕ) < NextWithInt 12 ∧ NextWithInt 12 ≤ 15 := by
  refine ⟨(nextWithInt_next_greater 30).2.2 (by omega),
    ((nextWithInt_next_greater 12).2.1 (by omega)).1,
    ((nextWithInt_next_greater 12).2.1 (by omega)).2 15 (by decide) (by omega)⟩

/-- Claim C7: when the buffer contains the 2-byte magic header but holds fewer
bytes (from the header on) than the expected frame length `payloadLen + 5`
declared by the length byte, `DecodeNotification` returns the
length-mismatch error — not a panic; and when the buffer holds at least
the expected frame length, arbitrary trailing bytes after the frame do not
change the result (decoding uses only the computed frame length). -/
theorem lunar_length_mismatch_and_trailing :
    (∀ data idx, findHeader data = some idx →
      4 ≤ (data.drop idx).length →
      (data.drop idx).length < (data.drop idx).getD 3 0 + 5 →
      DecodeNotification data =
        some (.error (.lengthMismatch ((data.drop idx).getD 3 0 + 5)
          (data.drop idx).length))) ∧
    (∀ data extra idx, findHeader data = some idx →
      (data.drop idx).getD 3 0 + 5 ≤ (data.drop idx).length →
      DecodeNotification (data ++ extra) = DecodeNotification data) := by
  constructor
  · intro data idx h h4 hlt
    rw [DecodeNotification, h]
    simp only
    rw [if_neg (by omega), if_pos hlt]
  · intro data extra idx h hfull
    have hidxlen : idx + 2 ≤ data.length := findHeader_bound data idx h
    have h2 : findHeader (data ++ extra) = some idx := findHeader_append extra h
    have hdrop : (data ++ extra).drop idx = data.drop idx ++ extra :=
      List.drop_append_of_le_length (by omega)
    have h3len : 3 < (data.drop idx).length := by omega
    have hgetD : (data.drop idx ++ extra).getD 3 0 = (data.drop idx).getD 3 0 := by
      rw [List.getD_eq_getElem?_getD, List.getD_eq_getElem?_getD,
        List.getElem?_append_left h3len]
    have htake : (data.drop idx ++ extra).take ((data.drop idx).getD 3 0 + 5) =
        (data.drop idx).take ((data.drop idx).getD 3 0 + 5) :=
      List.take_append_of_le_length hfull
    have c1 : ¬ ((data.drop idx).length + extra.length < 4) := by omega
    have c2 : ¬ ((data.drop idx).length < 4) := by omega
    have c3 : ¬ ((data.drop idx).length + extra.length <
        (data.drop idx).getD 3 0 + 5) := by omega
    have c4 : ¬ ((data.drop idx).length < (data.drop idx).getD 3 0 + 5) := by omega
    rw [DecodeNotification, DecodeNotification, h, h2]
    simp only [hdrop, List.length_append, hgetD, htake]
    rw [if_neg c1, if_neg c2, if_neg c3, if_neg c4]

/-- Claim C7 witness: a header-bearing buffer whose length byte announces a
14-byte frame while only 4 bytes are present yields the length-mismatch
error, and trailing garbage after a complete frame does not change the
decode result. -/
theorem lunar_length_mismatch_and_trailing_witness :
    DecodeNotification [0xEF, 0xDD, 0x0C, 0x09] =
      some (.error (.lengthMismatch 14 4)) ∧
    DecodeNotification ([0xEF, 0xDD, 0x05, 0x01, 0x00, 0x00] ++ [1, 2, 3]) =
      DecodeNotification [0xEF, 0xDD, 0x05, 0x01, 0x00, 0x00] := by
  refine ⟨?_, ?_⟩
  · have h := lunar_length_mismatch_and_trailing.1 [0xEF, 0xDD, 0x0C, 0x09] 0
      (by decide) (by decide) (by decide)
    simpa using h
  · exact lunar_length_mismatch_and_trailing.2 [0xEF, 0xDD, 0x05, 0x01, 0x00, 0x00]
      [1, 2, 3] 0 (by decide) (by decide)

/-- Claim C8: for a complete frame (consistent length byte, which by the encode
scheme counts itself, so it is at least 1), an unrecognised top-level
command (not 7, 8 or 12) decodes to `UnhandledMessage` carrying the
command id, no nested type, the payload and the raw frame, with a nil
error; and a command-12 frame (length byte at least 2, covering the nested
type byte) whose nested event type is not 5 decodes to `UnhandledMessage`
carrying command 12, the nested type, the payload and the raw frame, with
a nil error. -/
theorem lunar_unhandled_message (data : List ℕ) (idx : ℕ) (frame : List ℕ)
    (hidx : findHeader data = some idx)
    (hplen : 1 ≤ (data.drop idx).getD 3 0)
    (hfull : (data.drop idx).getD 3 0 + 5 ≤ (data.drop idx).length)
    (hframe : frame = (data.drop idx).take ((data.drop idx).getD 3 0 + 5)) :
    (frame.getD 2 0 ≠ 12 → frame.getD 2 0 ≠ 8 → frame.getD 2 0 ≠ 7 →
      DecodeNotification data =
        some (.ok (.unhandled
          { commandID := frame.getD 2 0, msgType := none
            payload := (frame.drop 4).take (frame.length - 2 - 4)
            rawFrame := frame }))) ∧
    (frame.getD 2 0 = 12 → 2 ≤ (data.drop idx).getD 3 0 → frame.getD 4 0 ≠ 5 →
      DecodeNotification data =
        some (.ok (.unhandled
          { commandID := 12, msgType := some (frame.getD 4 0)
            payload := (frame.drop 5).take (frame.length - 2 - 5)
            rawFrame := frame }))) := by
  have hframelen : frame.length = (data.drop idx).getD 3 0 + 5 := by
    rw [hframe, List.length_take]
    omega
  constructor
  · intro h12 h8 h7
    rw [DecodeNotification, hidx]
    simp only
    rw [if_neg (by omega), if_neg (by omega), ← hframe]
    rw [if_neg h12, if_neg h8, if_neg h7]
    rw [goSlice, if_pos ⟨by omega, by omega⟩]
  · intro h12 hplen2 h5
    rw [DecodeNotification, hidx]
    simp only
    rw [if_neg (by omega), if_neg (by omega), ← hframe]
    rw [if_pos h12]
    rw [goSlice, if_pos ⟨by omega, by omega⟩]
    show some (decodeEventMessage (frame.getD 4 0)
      ((frame.drop 5).take (frame.length - 2 - 5)) frame) = _
    rw [decodeEventMessage, if_neg h5]

/-- Claim C8 witness: the unknown top-level command 1 and the command-12 frame
with unknown nested event type 9 both decode to `UnhandledMessage` with a
nil error. -/
theorem lunar_unhandled_message_witness :
    DecodeNotification [0xEF, 0xDD, 0x01, 0x01, 0x00, 0x00] =
      some (.ok (.unhandled
        { commandID := 1, msgType := none, payload := [],
          rawFrame := [0xEF, 0xDD, 0x01, 0x01, 0x00, 0x00] })) ∧
    DecodeNotification [0xEF, 0xDD, 0x0C, 0x02, 0x09, 0x00, 0x00] =
      some (.ok (.unhandled
        { commandID := 12, msgType := some 9, payload := [],
          rawFrame := [0xEF, 0xDD, 0x0C, 0x02, 0x09, 0x00, 0x00] })) := by
  constructor
  · have h := (lunar_unhandled_message [0xEF, 0xDD, 0x01, 0x01, 0x00, 0x00] 0
      [0xEF, 0xDD, 0x01, 0x01, 0x00, 0x00] (by decide) (by decide) (by decide)
      (by decide)).1 (by decide) (by decide) (by decide)
    simpa using h
  · have h := (lunar_unhandled_message [0xEF, 0xDD, 0x0C, 0x02, 0x09, 0x00, 0x00] 0
      [0xEF, 0xDD, 0x0C, 0x02, 0x09, 0x00, 0x00] (by decide) (by decide) (by decide)
      (by decide)).2 (by decide) (by decide) (by decide)
    simpa using h

end Goscale
